import Mathlib

/-!
Verification development for the lurklib IRC client core
(`src/lurklib/__init__.py`).  The Python source is shallowly embedded:
strings are Lean `String`s, Python dictionaries become association lists
kept in insertion order, and fallible operations return
`Except PyErr`.  Components that live in excluded modules of the
repository (the `exceptions`, `sending`, `connection` helpers) are
modelled from the specification and marked as such in their doc
comments.
-/

namespace Lurklib

/-- Python exceptions (and two model-level conditions) that the embedded
code can signal.  `blocked` models a `socket.recv` that would block
forever because the modelled network has no more data; `outOfFuel`
models non-termination of an unbounded `while` loop. -/
inductive PyErr where
  | indexError : PyErr
  | keyError : String → PyErr
  | typeError : PyErr
  | unboundLocalError : PyErr
  | valueError : PyErr
  | lookupError : PyErr
  | unicodeDecodeError : PyErr
  | blocked : PyErr
  | outOfFuel : PyErr
  | lurklibProtocolError : String → PyErr
deriving DecidableEq, Repr

/-- The whitespace characters recognised by Python's `str.split()`. -/
def isPySpace (c : Char) : Bool :=
  c = ' ' || c = '\t' || c = '\n' || c = '\r' || c = '\x0b' || c = '\x0c'

/-- Boolean list-prefix test used by the string-search helpers. -/
def isPre : List Char → List Char → Bool
  | [], _ => true
  | _ :: _, [] => false
  | a :: as, b :: bs => a = b && isPre as bs

/-- Index of the first occurrence of `needle` in `haystack`
(Python `str.find`, with `none` for `-1`). -/
def pyFindIdxL (needle : List Char) : List Char → Option Nat
  | [] => if isPre needle [] then some 0 else none
  | c :: t =>
    if isPre needle (c :: t) then some 0
    else (pyFindIdxL needle t).map (· + 1)

/-- String form of `pyFindIdxL`. -/
def pyFindStr (haystack needle : String) : Option Nat :=
  pyFindIdxL needle.data haystack.data

/-- `IRC.find` from the source: substring containment via `str.find`. -/
def find (haystack needle : String) : Bool :=
  (pyFindStr haystack needle).isSome

/-- Python `str.replace(old, new)` (all occurrences, left to right),
for a non-empty pattern; the empty pattern is returned unchanged.  The
fuel argument only makes the recursion structural: every step consumes
at least one character, so any fuel at least the input length gives the
replacement itself and the exhaustion case is unreachable. -/
def pyReplaceL (old new : List Char) : Nat → List Char → List Char
  | _, [] => []
  | 0, s => s
  | fuel + 1, c :: t =>
    if old ≠ [] ∧ isPre old (c :: t) then
      new ++ pyReplaceL old new fuel (t.drop (old.length - 1))
    else
      c :: pyReplaceL old new fuel t

/-- String form of `pyReplaceL`. -/
def pyReplace (s old new : String) : String :=
  String.mk (pyReplaceL old.data new.data s.data.length s.data)

/-- Python `str.replace(old, new, 1)` (first occurrence only). -/
def pyReplaceFirstL (old new : List Char) : List Char → List Char
  | [] => []
  | c :: t =>
    if old ≠ [] ∧ isPre old (c :: t) then
      new ++ (c :: t).drop old.length
    else
      c :: pyReplaceFirstL old new t

/-- String form of `pyReplaceFirstL`. -/
def pyReplaceFirst (s old new : String) : String :=
  String.mk (pyReplaceFirstL old.data new.data s.data)

/-- Python `str.split(sep)` for a non-empty separator, keeping empty
fields (so `"".split(sep) = [""]`).  Fuel as in `pyReplaceL`. -/
def pySplitOnL (sep : List Char) : Nat → List Char → List (List Char)
  | _, [] => [[]]
  | 0, s => [s]
  | fuel + 1, c :: t =>
    if sep ≠ [] ∧ isPre sep (c :: t) then
      [] :: pySplitOnL sep fuel (t.drop (sep.length - 1))
    else
      match pySplitOnL sep fuel t with
      | [] => [[c]]
      | g :: gs => (c :: g) :: gs

/-- String form of `pySplitOnL`. -/
def pySplitOnStr (s sep : String) : List String :=
  (pySplitOnL sep.data s.data.length s.data).map String.mk

theorem length_dropWhile_le (p : α → Bool) (l : List α) :
    (l.dropWhile p).length ≤ l.length := by
  induction l with
  | nil => simp [List.dropWhile]
  | cons c t ih =>
    cases h : p c
    · simp [List.dropWhile, h]
    · simp only [List.dropWhile, h, List.length_cons]; omega

/-- Python `str.split()` with no argument: split on whitespace runs,
dropping empty fields.  Fuel as in `pyReplaceL`. -/
def pySplitWsL : Nat → List Char → List (List Char)
  | _, [] => []
  | 0, s => [s]
  | fuel + 1, c :: t =>
    if isPySpace c then pySplitWsL fuel t
    else (c :: t.takeWhile (fun x => !isPySpace x)) ::
      pySplitWsL fuel (t.dropWhile (fun x => !isPySpace x))

/-- String form of `pySplitWsL`. -/
def pySplitWs (s : String) : List String :=
  (pySplitWsL s.data.length s.data).map String.mk

/-- Python `str.split(None, n)`: at most `n` whitespace splits, the last
field keeping the remainder (with its leading whitespace stripped).
Fuel as in `pyReplaceL`. -/
def pySplitWsMaxL : Nat → Nat → List Char → List (List Char)
  | _, _, [] => []
  | 0, _, s => [s]
  | fuel + 1, n, c :: t =>
    if isPySpace c then pySplitWsMaxL fuel n t
    else
      match n with
      | 0 => [c :: t]
      | m + 1 =>
        (c :: t.takeWhile (fun x => !isPySpace x)) ::
          pySplitWsMaxL fuel m (t.dropWhile (fun x => !isPySpace x))

/-- `str.split(None, 3)` as used by `IRC.recv`. -/
def pySplitNone3 (s : String) : List String :=
  (pySplitWsMaxL s.data.length 3 s.data).map String.mk

/-- Python slice `s[1:]`. -/
def pyDrop1 (s : String) : String := String.mk (s.data.drop 1)

/-- Python `s.split(sep, 1)` for a non-empty separator. -/
def pySplit1 (s sep : String) : List String :=
  match pyFindIdxL sep.data s.data with
  | none => [s]
  | some i => [String.mk (s.data.take i), String.mk (s.data.drop (i + sep.data.length))]

/-- Python `str.upper` restricted to the ASCII inputs of this protocol. -/
def pyUpper (s : String) : String := String.mk (s.data.map Char.toUpper)

/-- Parse a run of decimal digits (`none` when empty or non-digit). -/
def digitsToNat? : List Char → Option Nat
  | [] => none
  | cs => cs.foldl (fun acc c =>
      match acc with
      | none => none
      | some n => if c.isDigit then some (n * 10 + (c.toNat - 48)) else none)
      (some 0)

/-- Python `int(str)` on the strings this code feeds it: strip
whitespace, optional sign, then decimal digits; `none` models a
`ValueError`. -/
def pyToInt? (s : String) : Option Int :=
  let cs := (s.data.dropWhile isPySpace).reverse.dropWhile isPySpace |>.reverse
  match cs with
  | '-' :: rest => (digitsToNat? rest).map (fun n => -(n : Int))
  | '+' :: rest => (digitsToNat? rest).map Int.ofNat
  | rest => (digitsToNat? rest).map Int.ofNat

/-- Python `l[i]` for a non-negative index (`IndexError` when out of
range). -/
def lidx (l : List α) (n : Nat) : Except PyErr α :=
  match l.get? n with
  | some a => .ok a
  | none => .error .indexError

/-- Python `l[i]` with negative-index wraparound. -/
def pyIdx (l : List α) (i : Int) : Except PyErr α :=
  let j : Int := if i < 0 then i + l.length else i
  if j < 0 then .error .indexError
  else
    match l.get? j.toNat with
    | some a => .ok a
    | none => .error .indexError

/-- Python `sep.join(l)`. -/
def pyJoin (sep : String) : List String → String
  | [] => ""
  | [x] => x
  | x :: xs => x ++ sep ++ pyJoin sep xs

/-- Result of `IRC._from_`: a parsed `nick!user@host` triple, or the
raw token when the hostmask shape is missing. -/
inductive Ident where
  | full : String → String → String → Ident
  | raw : String → Ident
deriving DecidableEq, Repr

/-- `IRC._from_` from the source: split once on `@`, then the first
half once on `!`; any `IndexError` collapses to the raw token. -/
def _from_ (who : String) : Ident :=
  match pySplit1 who "@" with
  | [h0, h1] =>
    match pySplit1 h0 "!" with
    | [n0, n1] => .full n0 n1 h1
    | _ => .raw who
  | _ => .raw who

/-- Python `who[0]`: the first tuple component for a parsed identity,
the first character for a raw string (IndexError when empty). -/
def identGet0 : Ident → Except PyErr String
  | .full n _ _ => .ok n
  | .raw s =>
    match s.data with
    | [] => .error .indexError
    | c :: _ => .ok (String.mk [c])

/-- Untyped Python values stored in the channel dictionaries: strings,
privilege-attribute vectors (lists of strings) and nested dicts. -/
inductive PyVal where
  | pystr : String → PyVal
  | pylist : List String → PyVal
  | pydict : List (String × PyVal) → PyVal

/-- Lookup in an insertion-ordered association list (Python dict read). -/
def dLookup : List (String × α) → String → Option α
  | [], _ => none
  | (k, v) :: t, key => if k = key then some v else dLookup t key

/-- Python `d[k]` (KeyError when absent). -/
def dGet (d : List (String × α)) (k : String) : Except PyErr α :=
  match dLookup d k with
  | some v => .ok v
  | none => .error (.keyError k)

/-- Python `d[k] = v`: update in place when the key exists (keys are
unique by construction), append otherwise (insertion order
preserved). -/
def dSet : List (String × α) → String → α → List (String × α)
  | [], k, v => [(k, v)]
  | (k1, v1) :: t, k, v =>
    if k1 = k then (k, v) :: t else (k1, v1) :: dSet t k v

/-- Remove a key from an association list. -/
def dRemove (d : List (String × α)) (k : String) : List (String × α) :=
  d.filter (fun p => p.1 ≠ k)

/-- Python `del d[k]` (KeyError when absent). -/
def dDel (d : List (String × α)) (k : String) : Except PyErr (List (String × α)) :=
  if (dLookup d k).isSome then .ok (dRemove d k) else .error (.keyError k)

/-- View a `PyVal` as a dict (TypeError otherwise). -/
def asDict : PyVal → Except PyErr (List (String × PyVal))
  | .pydict d => .ok d
  | _ => .error .typeError

/-- A value of the CTCP reply table: a constant string, an integer
token index, a zero-argument callable (modelled by the string its call
returns), or `None`. -/
inductive CtcpVal where
  | pyStr : String → CtcpVal
  | pyInt : Int → CtcpVal
  | pyCallable : String → CtcpVal
  | pyNone : CtcpVal
deriving DecidableEq, Repr

/-- `IRC.ctcp_encode` from the source. -/
def ctcp_encode (msg : String) : String := "\x01" ++ msg ++ "\x01"

/-- `IRC.ctcp_decode` from the source: strip every delimiter byte. -/
def ctcp_decode (msg : String) : String := pyReplace msg "\x01" ""

/-- The typed events returned by `IRC.stream`.  Tuple payloads of the
source are flattened into constructor arguments; `JOINSelf` stands for
the source's `return 'JOIN', self.join(channel)` confirmation path,
whose `self.join` lives in an excluded module. -/
inductive Event where
  | JOIN : Ident → String → Event
  | JOINSelf : String → Event
  | PART : Ident → String → String → Event
  | PRIVMSG : Ident → String → String → Event
  | ACTION : Ident → String → String → Event
  | CTCP : Ident → String → String → Event
  | CTCP_REPLY : Ident → String → String → Event
  | NOTICE : Ident → String → String → Event
  | MODE : Ident → String → String → Event
  | MODESelf : String → Event
  | KICK : Ident → String → String → String → Event
  | INVITE : Ident → String → String → Event
  | NICK : Ident → String → Event
  | TOPIC : Ident → String → String → Event
  | QUIT : Ident → String → Event
  | LUSERS : List (String × String) → Event
  | ERROR : String → Event
  | UNKNOWN : List String → Event
deriving DecidableEq

/-- The classifier-visible state of an `IRC` instance: the tracked
nick, the channel store, the LUSERS counters, the CTCP reply table, the
messages sent back out (target, text) and the disconnect flag. -/
structure IRCState where
  current_nick : String
  channels : List (String × PyVal)
  lusers : List (String × String)
  ctcps : List (String × CtcpVal)
  sent : List (String × String)
  disconnected : Bool

/-- Modelled from the spec: `self.notice(target, text)` from the
excluded sending module — "the reply, if any, is sent back as a NOTICE
to the requester".  Recorded on the state's outbound list. -/
def notice (st : IRCState) (target text : String) : IRCState :=
  { st with sent := st.sent ++ [(target, text)] }

/-- Modelled from the spec: `self.quit()` from the excluded connection
module — "terminate the connection (invoke external disconnect)". -/
def quit (st : IRCState) : IRCState := { st with disconnected := true }

/-- Modelled from the spec: `self.parse_cmode_string` belongs to the
"excluded mode-string parser"; its mutation of the mode state is
irrelevant to every claim and is abstracted as the identity. -/
def parse_cmode_string (st : IRCState) (_mode _target : String) : IRCState := st

/-- Modelled from the spec: `self._parse`, the "generic, lower-fidelity
parser" of the excluded layer, represented by the whitespace
tokenization of the line. -/
def _parse (data : String) : List String := pySplitWs data

/-- One reply computation of the CTCP table (source lines 266-273): a
callable is invoked and stringified; otherwise `int(value)` indexes the
request's own tokens with the token name prefixed, and a `ValueError`
from `int` falls back to the value itself. -/
def ctcpRespond (csegs : List String) (k : String) : CtcpVal → Except PyErr String
  | .pyCallable ret => .ok ret
  | .pyInt n => do
    let r ← pyIdx csegs n
    .ok (k ++ " " ++ r)
  | .pyStr s =>
    match pyToInt? s with
    | some n => do
      let r ← pyIdx csegs n
      .ok (k ++ " " ++ r)
    | none => .ok s
  | .pyNone => .ok ""

/-- The `for ctcp in self.ctcps.keys()` loop of the PRIVMSG branch
(source lines 264-275): on the first key equal to the request token with
a non-`None` value, send one NOTICE and stop. -/
def ctcpNoticeLoop (csegs : List String) (c0 : String) (who : Ident)
    (st : IRCState) : List (String × CtcpVal) → Except PyErr IRCState
  | [] => .ok st
  | (k, v) :: rest =>
    if k = c0 ∧ v ≠ .pyNone then do
      let response ← ctcpRespond csegs k v
      let w0 ← identGet0 who
      .ok (notice st w0 (ctcp_encode response))
    else ctcpNoticeLoop csegs c0 who st rest

/-- The LUSERS numeric branches (source lines 334-370), indexed by the
numeric code; returns the updated counter dict. -/
def lusersUpdate (code : String) (segments : List String)
    (lusers : List (String × String)) : Except PyErr (List (String × String)) :=
  if code = "250" then do
    let s6 ← lidx segments 6
    let s9 ← lidx segments 9
    .ok (dSet (dSet lusers "HIGHESTCONNECTIONS" s6) "TOTALCONNECTIONS" (pyDrop1 s9))
  else if code = "251" then do
    let s5 ← lidx segments 5
    let s8 ← lidx segments 8
    let s11 ← lidx segments 11
    .ok (dSet (dSet (dSet lusers "USERS" s5) "INVISIBLE" s8) "SERVERS" s11)
  else if code = "252" then do
    let s3 ← lidx segments 3
    .ok (dSet lusers "OPERATORS" s3)
  else if code = "253" then do
    let s3 ← lidx segments 3
    .ok (dSet lusers "UNKNOWN" s3)
  else if code = "254" then do
    let s3 ← lidx segments 3
    .ok (dSet lusers "CHANNELS" s3)
  else if code = "255" then do
    let s5 ← lidx segments 5
    let s8 ← lidx segments 8
    .ok (dSet (dSet lusers "CLIENTS" s5) "LSERVERS" s8)
  else if code = "265" then do
    let s6 ← lidx segments 6
    let s8 ← lidx segments 8
    .ok (dSet (dSet lusers "LOCALUSERS" s6) "LOCALMAX" s8)
  else do
    let s6 ← lidx segments 6
    let s8 ← lidx segments 8
    .ok (dSet (dSet lusers "GLOBALUSERS" s6) "GLOBALMAX" s8)

/-- Write `self.channels[channel]['USERS'][nick] = v`, with the same
KeyError behavior as the source. -/
def setChanUser (st : IRCState) (channel nick : String) (v : PyVal) :
    Except PyErr IRCState := do
  let ch ← dGet st.channels channel
  let chD ← asDict ch
  let users ← dGet chD "USERS"
  let usersD ← asDict users
  let chD' := dSet chD "USERS" (.pydict (dSet usersD nick v))
  .ok { st with channels := dSet st.channels channel (.pydict chD') }

/-- Execute `del self.channels[channel]['USERS'][nick]`, with the same
KeyError behavior as the source. -/
def delChanUser (st : IRCState) (channel nick : String) :
    Except PyErr IRCState := do
  let ch ← dGet st.channels channel
  let chD ← asDict ch
  let users ← dGet chD "USERS"
  let usersD ← asDict users
  let usersD' ← dDel usersD nick
  let chD' := dSet chD "USERS" (.pydict usersD')
  .ok { st with channels := dSet st.channels channel (.pydict chD') }

/-- The NICK rename loop (source lines 316-319): for every tracked
channel, read the old nick's attribute vector, delete the old key and
bind the new one; a channel without the old nick raises KeyError. -/
def nickRename (old new : String) : List (String × PyVal) →
    Except PyErr (List (String × PyVal))
  | [] => .ok []
  | (name, chval) :: rest => do
    let chD ← asDict chval
    let users ← dGet chD "USERS"
    let usersD ← asDict users
    let priv ← dGet usersD old
    let usersD' ← dDel usersD old
    let usersD'' := dSet usersD' new priv
    let rest' ← nickRename old new rest
    .ok ((name, .pydict (dSet chD "USERS" (.pydict usersD''))) :: rest')

/-- `IRC.stream` from the source (lines 228-376), applied to the line
`data` that its internal `self._recv()` call returned; the buffer side
is modelled separately.  Every dispatch branch of the source is
embedded; the self-join cursor rewind of the JOIN branch is represented
by the `JOINSelf` event. -/
def stream (st : IRCState) (data : String) : Except PyErr (Event × IRCState) := do
  let segments := pySplitWs data
  let s1 ← lidx segments 1
  let s0 ← lidx segments 0
  if s1 = "JOIN" then
    let who := _from_ (pyDrop1 s0)
    let s2 ← lidx segments 2
    let channel := pyDrop1 s2
    if (dLookup st.channels channel).isSome = false then
      .ok (.JOINSelf channel, st)
    else do
      let w0 ← identGet0 who
      let st' ← setChanUser st channel w0 (.pylist ["", "", "", "", ""])
      .ok (.JOIN who channel, st')
  else if s1 = "PART" then do
    let who := _from_ (pyReplaceFirst s0 ":" "")
    let channel ← lidx segments 2
    let w0 ← identGet0 who
    let st' ← delChanUser st channel w0
    let reason := pyReplaceFirst (pyJoin " " (segments.drop 3)) ":" ""
    .ok (.PART who channel reason, st')
  else if s1 = "PRIVMSG" then do
    let who := _from_ (pyReplaceFirst s0 ":" "")
    let msg := pyReplaceFirst (pyJoin " " (segments.drop 3)) ":" ""
    let s2 ← lidx segments 2
    if pyFindStr msg "\x01" = some 0 then do
      let rctcp := pyUpper (ctcp_decode msg)
      let csegs := pySplitWs rctcp
      let c0 ← lidx csegs 0
      if c0 = "ACTION" then
        let action := pyJoin " " ((pySplitWs rctcp).drop 1)
        .ok (.ACTION who s2 action, st)
      else do
        let st' ← ctcpNoticeLoop csegs c0 who st st.ctcps
        .ok (.CTCP who s2 rctcp, st')
    else
      .ok (.PRIVMSG who s2 msg, st)
  else if s1 = "NOTICE" then do
    let who := _from_ (pyReplaceFirst s0 ":" "")
    let msg := pyReplaceFirst (pyJoin " " (segments.drop 3)) ":" ""
    let s2 ← lidx segments 2
    if pyFindStr msg "\x01" = some 0 then
      .ok (.CTCP_REPLY who s2 (ctcp_decode msg), st)
    else
      .ok (.NOTICE who s2 msg, st)
  else if s1 = "MODE" then do
    let mode := pyReplaceFirst (pyJoin " " (segments.drop 3)) ":" ""
    let who := _from_ (pyDrop1 s0)
    let target ← lidx segments 2
    if target ≠ st.current_nick then
      .ok (.MODE who target mode, parse_cmode_string st mode target)
    else
      .ok (.MODESelf (pyReplaceFirst mode ":" ""), st)
  else if s1 = "KICK" then do
    let _who := _from_ (pyReplaceFirst s0 ":" "")
    let s3 ← lidx segments 3
    let _st' ←
      if st.current_nick = s3 then do
        let s2 ← lidx segments 2
        let uch ← dGet st.channels "USERS"
        let d ← asDict uch
        let d' ← dDel d s2
        .ok { st with channels := dSet st.channels "USERS" (.pydict d') }
      else .ok st
    .error PyErr.unboundLocalError
  else if s1 = "INVITE" then do
    let who := _from_ (pyReplaceFirst s0 ":" "")
    let s3 ← lidx segments 3
    let channel := pyReplaceFirst s3 ":" ""
    let s2 ← lidx segments 2
    .ok (.INVITE who s2 channel, st)
  else if s1 = "NICK" then do
    let who := _from_ (pyReplaceFirst s0 ":" "")
    let new_nick := pyJoin " " (segments.drop 2)
    let w0 ← identGet0 who
    let st' := if st.current_nick = w0 then { st with current_nick := new_nick } else st
    let channels' ← nickRename w0 new_nick st'.channels
    .ok (.NICK who new_nick, { st' with channels := channels' })
  else if s1 = "TOPIC" then do
    let who := _from_ (pyReplaceFirst s0 ":" "")
    let channel ← lidx segments 2
    let topic := pyReplaceFirst (pyJoin " " (segments.drop 3)) ":" ""
    let ch ← dGet st.channels channel
    let chD ← asDict ch
    let chD' := dSet chD "TOPIC" (.pystr topic)
    let st' := { st with channels := dSet st.channels channel (.pydict chD') }
    .ok (.TOPIC who channel topic, st')
  else if s1 = "QUIT" then do
    let who := _from_ (pyReplaceFirst s0 ":" "")
    let msg := pyReplaceFirst (pyJoin " " (segments.drop 2)) ":" ""
    .ok (.QUIT who msg, st)
  else if s1 = "250" ∨ s1 = "251" ∨ s1 = "252" ∨ s1 = "253" ∨ s1 = "254" ∨
      s1 = "255" ∨ s1 = "265" ∨ s1 = "266" then do
    let lusers' ← lusersUpdate s1 segments st.lusers
    .ok (.LUSERS lusers', { st with lusers := lusers' })
  else if s0 = "ERROR" then
    .ok (.ERROR (pyReplaceFirst (pyJoin " " (segments.drop 1)) ":" ""),
      quit st)
  else
    .ok (.UNKNOWN (_parse data), st)

/-- `IRC.recv` from the source (lines 206-215), applied to the line its
internal `self._recv()` call returned, with the error-code set (the
`error_dictionary` of the excluded variables module) passed explicitly.
The `self.exception(code)` call of the excluded exceptions module is
modelled from the spec: "raises a protocol-error signal carrying that
code". -/
def recv (error_dictionary : List String) (data : String) :
    Except PyErr (List String) := do
  let m1 ← lidx (pySplitNone3 data) 1
  if m1 ∈ error_dictionary then .error (.lurklibProtocolError m1)
  else .ok (pySplitNone3 data)

/-- `IRC.send` from the source (lines 104-118): the text written to the
socket for a message — carriage returns and newlines are escaped to the
two-character sequences, then the terminator is appended.  The byte
encoding of this text is outside the model. -/
def send (msg : String) : String :=
  pyReplace (pyReplace msg "\r" "\\r") "\n" "\\n" ++ "\r\n"

/-- The buffer-side state of an `IRC` instance: the framed-line buffer
and read cursor, the pending network input (one entry per completed
`mcon` read, already decoded), and the lines written back out. -/
structure BufState where
  buffer : List String
  index : Nat
  net : List String
  sent : List String
deriving DecidableEq, Repr

/-- One line of the `mcon` framing loop (source lines 137-141): a line
with the 6-character probe prefix is answered through `send` with
`PING` replaced by `PONG`; every non-empty line is appended to the
buffer. -/
def processLine (st : BufState) (line : String) : BufState :=
  if pyFindStr line "PING :" = some 0 then
    if line ≠ "" then
      { st with sent := st.sent ++ [send (pyReplace line "PING" "PONG")],
                buffer := st.buffer ++ [line] }
    else
      { st with sent := st.sent ++ [send (pyReplace line "PING" "PONG")] }
  else
    if line ≠ "" then { st with buffer := st.buffer ++ [line] } else st

/-- `IRC.mcon` from the source (lines 120-141): consume one completed
read from the network, split it on the terminator and process each
line.  An empty network models a `socket.recv` that blocks forever. -/
def mcon (st : BufState) : Except PyErr BufState :=
  match st.net with
  | [] => .error .blocked
  | sdata :: rest =>
    .ok ((pySplitOnStr sdata "\r\n").foldl processLine { st with net := rest })

/-- `IRC._resetbuffer` from the source (lines 178-181). -/
def _resetbuffer (st : BufState) : BufState :=
  { st with index := 0, buffer := [] }

/-- The `while self.find(msg, 'PING :')` skip loop of `IRC._recv`
(source lines 152-161), with fuel bounding the number of iterations of
the unbounded Python loop. -/
def recvLoop : Nat → BufState → String → Except PyErr (String × BufState)
  | 0, _, _ => .error .outOfFuel
  | fuel + 1, st, msg =>
    if find msg "PING :" then
      match st.buffer.get? (st.index + 1) with
      | some m => recvLoop fuel { st with index := st.index + 1 } m
      | none =>
        match mcon { st with index := st.index + 1 } with
        | .error e => .error e
        | .ok st2 => recvLoop fuel { st2 with index := st2.index - 1 } msg
    else
      .ok (msg, { st with index := st.index + 1 })

/-- The delivery tail of `IRC._recv`: read the line at the cursor and
run the skip loop. -/
def recvDeliver (fuel : Nat) (st : BufState) : Except PyErr (String × BufState) :=
  match st.buffer.get? st.index with
  | some msg => recvLoop fuel st msg
  | none => .error .indexError

/-- `IRC._recv` from the source (lines 143-161): refill when the cursor
has exhausted the buffer, compact (reset and refill) when the cursor
has reached 199, then deliver. -/
def _recv (fuel : Nat) (st : BufState) : Except PyErr (String × BufState) :=
  match (if st.index ≥ st.buffer.length then mcon st else .ok st) with
  | .error e => .error e
  | .ok st1 =>
    match (if st1.index ≥ 199 then mcon (_resetbuffer st1) else .ok st1) with
    | .error e => .error e
    | .ok st2 => recvDeliver fuel st2

/-- A model of Python's codec machinery for one configuration: which
result `bytes.decode` gives for each encoding name and received chunk
(chunks are numbered).  `lookupError` models an unknown encoding name,
`unicodeDecodeError` a genuine decode failure. -/
structure DecodeOracle where
  decode : String → Nat → Except PyErr String

/-- The per-read decode step of `IRC.mcon` (source lines 127-132):
`recv().decode(encoding)` guarded by `except LookupError`, whose
handler calls `recv()` again and decodes the fresh chunk with the
fallback encoding.  Returns the decoded text and the remaining
chunks. -/
def mconReadStep (dm : DecodeOracle) (encoding fallback_encoding : String)
    (sdata : String) (chunks : List Nat) : Except PyErr (String × List Nat) :=
  match chunks with
  | [] => .error .blocked
  | c :: rest =>
    match dm.decode encoding c with
    | .ok s => .ok (sdata ++ s, rest)
    | .error .lookupError =>
      match rest with
      | [] => .error .blocked
      | c2 :: rest2 =>
        match dm.decode fallback_encoding c2 with
        | .ok s => .ok (sdata ++ s, rest2)
        | .error e => .error e
    | .error e => .error e

/-- Does this channel value have a `USERS` dict containing `nick`?
Used as the well-formedness hypothesis of the NICK rename. -/
def chanHasUser (nick : String) : PyVal → Bool
  | .pydict d =>
    match dLookup d "USERS" with
    | some (.pydict u) => (dLookup u nick).isSome
    | _ => false
  | _ => false

/-- Spec-side statement of the NICK rename on one channel value,
following the specification's words: remove the old key from the
channel's user map and bind the new key to the old key's attribute
vector; a channel without the old key is untouched. -/
def specRenameVal (old new : String) : PyVal → PyVal
  | .pydict d =>
    match dLookup d "USERS" with
    | some (.pydict u) =>
      match dLookup u old with
      | some priv =>
        .pydict (dSet d "USERS" (.pydict (dSet (dRemove u old) new priv)))
      | none => .pydict d
    | _ => .pydict d
  | v => v

/-- Spec-side statement of the NICK rename across the whole channel
store, for comparison against the source loop `nickRename`. -/
def specNickRename (old new : String) (chans : List (String × PyVal)) :
    List (String × PyVal) :=
  chans.map (fun p => (p.1, specRenameVal old new p.2))

/-! ## Association-list lemmas -/

theorem dLookup_dSet (d : List (String × α)) (k n : String) (v : α) :
    dLookup (dSet d k v) n = if k = n then some v else dLookup d n := by
  induction d with
  | nil => simp [dSet, dLookup]
  | cons p t ih =>
    obtain ⟨k1, v1⟩ := p
    by_cases hk : k1 = k
    · subst hk
      by_cases hn : k1 = n <;> simp [dSet, dLookup, hn]
    · by_cases hn : k1 = n
      · subst hn
        have hkn : ¬ k = k1 := fun hh => hk hh.symm
        simp [dSet, dLookup, hk, hkn]
      · simp [dSet, dLookup, hk, hn, ih]

theorem dLookup_dRemove (d : List (String × α)) (k n : String) :
    dLookup (dRemove d k) n = if k = n then none else dLookup d n := by
  induction d with
  | nil => simp [dRemove, dLookup]
  | cons p t ih =>
    obtain ⟨k1, v1⟩ := p
    unfold dRemove at ih ⊢
    rw [List.filter_cons]
    by_cases hk : k1 = k
    · subst hk
      rw [if_neg (by simp), ih]
      by_cases hn : k1 = n
      · rw [if_pos hn, if_pos hn]
      · rw [if_neg hn, if_neg hn, dLookup, if_neg hn]
    · rw [if_pos (by simp [hk])]
      by_cases hn : k1 = n
      · rw [dLookup, if_pos hn, dLookup, if_pos hn,
          if_neg (fun hh => hk (hn.trans hh.symm))]
      · rw [dLookup, if_neg hn, dLookup, if_neg hn, ih]

/-! ## General string lemmas -/

theorem isPre_append_self (l r : List Char) : isPre l (l ++ r) = true := by
  induction l with
  | nil => rfl
  | cons a as ih => simp [isPre, ih]

theorem pyFindIdxL_single_none (c : Char) (s : List Char) (h : c ∉ s) :
    pyFindIdxL [c] s = none := by
  induction s with
  | nil => rfl
  | cons c1 t ih =>
    have hc : ¬ c = c1 := fun hh => h (hh ▸ List.mem_cons_self c1 t)
    have : isPre [c] (c1 :: t) = false := by simp [isPre, hc]
    simp only [pyFindIdxL, this, if_false, Bool.false_eq_true]
    rw [ih (fun hm => h (List.mem_cons_of_mem c1 hm))]
    rfl

theorem pyReplaceL_no_occur (old new : List Char) :
    ∀ (fuel : Nat) (s : List Char), pyFindIdxL old s = none →
      pyReplaceL old new fuel s = s := by
  intro fuel
  induction fuel with
  | zero => intro s _; cases s <;> rfl
  | succ f ih =>
    intro s h
    cases s with
    | nil => rfl
    | cons c t =>
      have hp : isPre old (c :: t) = false := by
        by_contra hb
        have : isPre old (c :: t) = true := by
          cases hx : isPre old (c :: t)
          · exact absurd hx hb
          · rfl
        simp [pyFindIdxL, this] at h
      have ht : pyFindIdxL old t = none := by
        simp only [pyFindIdxL, hp, Bool.false_eq_true, if_false] at h
        cases hx : pyFindIdxL old t
        · rfl
        · rw [hx] at h; simp at h
      simp only [pyReplaceL, hp]
      rw [if_neg (by simp [hp]), ih t ht]

theorem mem_pyReplaceL_single (c : Char) (new : List Char) :
    ∀ (fuel : Nat) (s : List Char), s.length ≤ fuel →
      ∀ x, x ∈ pyReplaceL [c] new fuel s → x ∈ new ∨ (x ∈ s ∧ x ≠ c) := by
  intro fuel
  induction fuel with
  | zero =>
    intro s hs x hx
    have : s = [] := List.length_eq_zero.mp (Nat.le_zero.mp hs)
    subst this
    simp [pyReplaceL] at hx
  | succ f ih =>
    intro s hs x hx
    cases s with
    | nil => simp [pyReplaceL] at hx
    | cons c1 t =>
      by_cases hc : c = c1
      · subst hc
        have hp : isPre [c] (c :: t) = true := by simp [isPre]
        rw [show pyReplaceL [c] new (f + 1) (c :: t) =
            new ++ pyReplaceL [c] new f t by
          simp [pyReplaceL, hp]] at hx
        rcases List.mem_append.mp hx with hl | hr
        · exact Or.inl hl
        · rcases ih t (by simpa using Nat.succ_le_succ_iff.mp hs) x hr with hl | ⟨h1, h2⟩
          · exact Or.inl hl
          · exact Or.inr ⟨List.mem_cons_of_mem _ h1, h2⟩
      · have hp : isPre [c] (c1 :: t) = false := by simp [isPre, hc]
        rw [show pyReplaceL [c] new (f + 1) (c1 :: t) =
            c1 :: pyReplaceL [c] new f t by
          simp [pyReplaceL, hp]] at hx
        rcases List.mem_cons.mp hx with hl | hr
        · exact Or.inr ⟨hl ▸ List.mem_cons_self c1 t,
            hl ▸ (fun hh => hc hh.symm)⟩
        · rcases ih t (by simpa using Nat.succ_le_succ_iff.mp hs) x hr with hl | ⟨h1, h2⟩
          · exact Or.inl hl
          · exact Or.inr ⟨List.mem_cons_of_mem _ h1, h2⟩

theorem mk_data (s : String) : String.mk s.data = s := by
  cases s
  rfl

theorem pyReplaceL_ping (t : List Char) (h : pyFindIdxL "PING".data t = none)
    (f : Nat) :
    pyReplaceL "PING".data "PONG".data (f + 3) ("PING :".data ++ t) =
      "PONG :".data ++ t := by
  show pyReplaceL "PING".data "PONG".data (f + 3)
      ('P' :: 'I' :: 'N' :: 'G' :: ' ' :: ':' :: t) = 'P' :: 'O' :: 'N' :: 'G' :: ' ' :: ':' :: t
  rw [show (f + 3) = (f + 2) + 1 from rfl, pyReplaceL,
    if_pos ⟨by decide, isPre_append_self "PING".data (' ' :: ':' :: t)⟩]
  show 'P' :: 'O' :: 'N' :: 'G' ::
      pyReplaceL "PING".data "PONG".data (f + 2) (' ' :: ':' :: t) = _
  rw [show (f + 2) = (f + 1) + 1 from rfl, pyReplaceL,
    if_neg (by simp [isPre])]
  rw [pyReplaceL, if_neg (by simp [isPre])]
  rw [pyReplaceL_no_occur "PING".data "PONG".data f t h]

theorem pySplitOnL_nil (sep : List Char) (fuel : Nat) :
    pySplitOnL sep fuel [] = [[]] := by
  cases fuel <;> rfl

theorem pySplitOnL_crlf (fuel : Nat) (l : List Char) (hcr : '\r' ∉ l)
    (hlt : l.length < fuel) :
    pySplitOnL ['\r', '\n'] fuel (l ++ ['\r', '\n']) = [l, []] := by
  induction fuel generalizing l with
  | zero => omega
  | succ f ih =>
    cases l with
    | nil =>
      show pySplitOnL ['\r', '\n'] (f + 1) ('\r' :: '\n' :: []) = _
      rw [pySplitOnL, if_pos ⟨by decide, by decide⟩]
      show [] :: pySplitOnL ['\r', '\n'] f [] = _
      rw [pySplitOnL_nil]
    | cons c l' =>
      have hc : c ≠ '\r' := fun hh => hcr (hh ▸ List.mem_cons_self c l')
      show pySplitOnL ['\r', '\n'] (f + 1) (c :: (l' ++ ['\r', '\n'])) = _
      rw [pySplitOnL, if_neg (fun hand => by
        have h2 := hand.2
        simp [isPre] at h2
        exact hc h2.1.symm)]
      rw [ih l' (fun hm => hcr (List.mem_cons_of_mem c hm))
        (by simpa using Nat.succ_le_succ_iff.mp hlt)]

theorem pySplitOnStr_line (line : String) (hcr : '\r' ∉ line.data) :
    pySplitOnStr (line ++ "\r\n") "\r\n" = [line, ""] := by
  unfold pySplitOnStr
  rw [show ("\r\n" : String).data = ['\r', '\n'] from rfl]
  rw [show (line ++ "\r\n").data = line.data ++ ['\r', '\n'] by
    simp [String.data_append]]
  rw [pySplitOnL_crlf _ line.data hcr (by simp)]
  simp [mk_data]

/-- `mcon` on a network whose next completed read frames exactly one
line that is a keep-alive probe: the PONG-substituted reply is written
out and the probe line is appended to the buffer. -/
theorem mcon_single_ping (st : BufState) (line : String) (rest : List String)
    (hnet : st.net = (line ++ "\r\n") :: rest) (hcr : '\r' ∉ line.data)
    (hne : line ≠ "") (hping : pyFindStr line "PING :" = some 0) :
    mcon st =
      .ok ({ st with
             net := rest,
             buffer := st.buffer ++ [line],
             sent := st.sent ++ [send (pyReplace line "PING" "PONG")] }) := by
  unfold mcon
  rw [hnet]
  show Except.ok (List.foldl processLine { st with net := rest }
    (pySplitOnStr (line ++ "\r\n") "\r\n")) = _
  rw [pySplitOnStr_line line hcr]
  show Except.ok (processLine (processLine { st with net := rest } line) "") = _
  unfold processLine
  rw [if_pos hping, if_pos hne]
  rw [if_neg (by rw [pyFindStr]; decide), if_neg (by simp)]

theorem recvLoop_ok_find_false (fuel : Nat) :
    ∀ (st : BufState) (msg r : String) (st' : BufState),
      recvLoop fuel st msg = .ok (r, st') → find r "PING :" = false := by
  induction fuel with
  | zero =>
    intro st msg r st' h
    simp [recvLoop] at h
  | succ f ih =>
    intro st msg r st' h
    rw [recvLoop] at h
    by_cases hf : find msg "PING :"
    · rw [if_pos hf] at h
      split at h
      · exact ih _ _ _ _ h
      · split at h
        · simp at h
        · exact ih _ _ _ _ h
    · rw [if_neg hf] at h
      simp only [Except.ok.injEq, Prod.mk.injEq] at h
      rw [← h.1]
      cases hx : find msg "PING :"
      · rfl
      · exact absurd hx hf

/-- The buffer reader never returns a line containing the substring
`PING :`: every `.ok` result of `_recv` is free of it. -/
theorem _recv_ok_find_false (fuel : Nat) (st : BufState) (r : String)
    (st' : BufState) (h : _recv fuel st = .ok (r, st')) :
    find r "PING :" = false := by
  unfold _recv at h
  split at h
  · simp at h
  · split at h
    · simp at h
    · unfold recvDeliver at h
      split at h
      · exact recvLoop_ok_find_false fuel _ _ _ _ h
      · simp at h

theorem pyReplace_noop (s old new : String)
    (h : pyFindIdxL old.data s.data = none) : pyReplace s old new = s := by
  unfold pyReplace
  rw [pyReplaceL_no_occur old.data new.data s.data.length s.data h]

/-! ## Claim theorems: concrete evaluations -/

/-- C9: for every message, the text `send` writes is the message with
every carriage return replaced by the two characters `\r` and every
newline by the two characters `\n`, followed by one CR-LF terminator;
consequently the part before the terminator contains no raw CR or LF,
so message content cannot inject extra protocol lines. -/
theorem c9_send_escapes_crlf (msg : String) :
    send msg = pyReplace (pyReplace msg "\r" "\\r") "\n" "\\n" ++ "\r\n" ∧
    '\r' ∉ (pyReplace (pyReplace msg "\r" "\\r") "\n" "\\n").data ∧
    '\n' ∉ (pyReplace (pyReplace msg "\r" "\\r") "\n" "\\n").data := by
  refine ⟨rfl, ?_, ?_⟩
  · intro hmem
    rcases mem_pyReplaceL_single '\n' "\\n".data
        (pyReplace msg "\r" "\\r").data.length (pyReplace msg "\r" "\\r").data
        (Nat.le_refl _) '\r' hmem with h1 | ⟨h2, _⟩
    · exact absurd h1 (by decide)
    · rcases mem_pyReplaceL_single '\r' "\\r".data
          msg.data.length msg.data (Nat.le_refl _) '\r' h2 with h3 | ⟨_, h4⟩
      · exact absurd h3 (by decide)
      · exact h4 rfl
  · intro hmem
    rcases mem_pyReplaceL_single '\n' "\\n".data
        (pyReplace msg "\r" "\\r").data.length (pyReplace msg "\r" "\\r").data
        (Nat.le_refl _) '\n' hmem with h1 | ⟨_, h2⟩
    · exact absurd h1 (by decide)
    · exact h2 rfl

/-- C1: the claim says classifying a KICK line removes the kicked nick
from the channel's user map (deleting the whole entry on a self-kick)
and returns a KICK event.  The source instead dereferences the local
variable `channel`, which is never bound on the KICK path, so every
KICK line raises UnboundLocalError, removes nothing and returns no
event: evaluating the classifier at the failing input yields the
error. -/
theorem c1_kick_unbound_channel :
    stream
      ⟨"me",
        [("#chan", .pydict
          [("USERS", .pydict [("victim", .pylist ["", "", "", "", ""])]),
           ("TOPIC", .pystr "")])],
        [], [], [], false⟩
      ":op!o@h KICK #chan victim :bye" = .error .unboundLocalError := rfl

/-- C6 counterexample: with the CTCP table mapping VERSION to
"Lurklib 1.0", the line `:alice!a@h PRIVMSG #chan :\x01VERSION\x01`
produces the claimed CTCP event, but the NOTICE sent back to alice
carries `\x01Lurklib 1.0\x01` — the `ValueError` branch uses the
configured value verbatim — not the claimed
`\x01VERSION Lurklib 1.0\x01`. -/
theorem c6_version_notice_counterexample :
    stream ⟨"me", [], [], [("VERSION", .pyStr "Lurklib 1.0")], [], false⟩
        ":alice!a@h PRIVMSG #chan :\x01VERSION\x01" =
      .ok (.CTCP (.full "alice" "a" "h") "#chan" "VERSION",
        ⟨"me", [], [], [("VERSION", .pyStr "Lurklib 1.0")],
          [("alice", "\x01Lurklib 1.0\x01")], false⟩) ∧
    ("\x01Lurklib 1.0\x01" : String) ≠ "\x01VERSION Lurklib 1.0\x01" :=
  ⟨rfl, by decide⟩

/-- C6 amended: same scenario, with the NOTICE body corrected to the
configured reply used verbatim, `\x01Lurklib 1.0\x01`; the CTCP event
payload carries ("alice","a","h"), "#chan" and "VERSION" as claimed. -/
theorem c6_version_reply_amended :
    stream ⟨"me", [], [], [("VERSION", .pyStr "Lurklib 1.0")], [], false⟩
        ":alice!a@h PRIVMSG #chan :\x01VERSION\x01" =
      .ok (.CTCP (.full "alice" "a" "h") "#chan" "VERSION",
        ⟨"me", [], [], [("VERSION", .pyStr "Lurklib 1.0")],
          [("alice", "\x01Lurklib 1.0\x01")], false⟩) := rfl

/-- C7 counterexample: the typed-event classifier `stream` never
consults the error-code set — a numeric reply whose code (here 433) is
in the set is classified as an UNKNOWN event rather than raising the
protocol-error signal. -/
theorem c7_stream_ignores_error_set :
    stream ⟨"me", [], [], [], [], false⟩
        ":server 433 * nick :Nickname is already in use" =
      .ok (.UNKNOWN
        [":server", "433", "*", "nick", ":Nickname", "is", "already", "in", "use"],
        ⟨"me", [], [], [], [], false⟩) := rfl

/-- C7 amended: the error-code check lives in the raw reader `recv`,
not in the classifier: for a line whose second token is a code in the
error set, `recv` raises the protocol-error signal carrying that code
instead of returning the parsed message. -/
theorem c7_recv_raises_amended (errs : List String) (data code : String)
    (h1 : lidx (pySplitNone3 data) 1 = .ok code) (h2 : code ∈ errs) :
    recv errs data = .error (.lurklibProtocolError code) := by
  unfold recv
  rw [h1]
  simp [Bind.bind, Except.bind, h2]

/-- C7 witness: `recv` at a concrete 433 reply with 433 configured as
an error code. -/
theorem c7_recv_raises_witness :
    recv ["433"] ":server 433 * nick :Nickname is already in use" =
      .error (.lurklibProtocolError "433") :=
  c7_recv_raises_amended ["433"] _ "433" rfl (by decide)

set_option maxRecDepth 8000 in
/-- C2 counterexample: with the cursor at the high-water mark 199 and
an undelivered line "pending" sitting at the cursor, `_recv` compacts
by discarding the whole buffer — afterwards the buffer holds only the
fresh line and "pending" is gone from the state, so the undelivered
line at the cursor is not "preserved and still delivered afterwards"
as the claim requires. -/
theorem c2_compaction_counterexample :
    _recv 5 ⟨List.replicate 199 "x" ++ ["pending"], 199, ["fresh\r\n"], []⟩ =
      .ok ("fresh", ⟨["fresh"], 1, [], []⟩) ∧
    (List.replicate 199 "x" ++ ["pending"]).get? 199 = some "pending" ∧
    "pending" ∉ (["fresh"] : List String) :=
  ⟨rfl, by decide, by decide⟩

/-- C5 counterexample: the line "abc PING : x" merely contains the
substring "PING :" in its body (at offset 4, so it is not a probe), yet
`_recv` skips it and returns "hello", advancing the cursor past both —
the contained line is never returned, contradicting the claim that
every line that is not itself a probe is delivered exactly once. -/
theorem c5_substring_skip_counterexample :
    _recv 5 ⟨["abc PING : x", "hello"], 0, [], []⟩ =
      .ok ("hello", ⟨["abc PING : x", "hello"], 2, [], []⟩) ∧
    pyFindStr "abc PING : x" "PING :" = some 4 ∧
    ("abc PING : x" : String) ≠ "hello" :=
  ⟨rfl, by decide, by decide⟩

/-- C4 counterexample: for the token t = "PING", the framed line
`PING :PING` is answered with `PONG :PONG` (str.replace substitutes
every occurrence of PING), not the claimed `PONG :t` =
`PONG :PING`. -/
theorem c4_ping_token_counterexample :
    mcon ⟨[], 0, ["PING :PING\r\n"], []⟩ =
      .ok ⟨["PING :PING"], 0, [], ["PONG :PONG\r\n"]⟩ ∧
    ("PONG :PONG\r\n" : String) ≠ "PONG :PING" ++ "\r\n" :=
  ⟨rfl, by decide⟩

/-- C8 counterexample: a chunk that fails to decode under a known
primary encoding (UnicodeDecodeError) propagates straight out of the
framer — the fallback encoding, which would have succeeded on that
very chunk, is never consulted, because the source only catches
LookupError. -/
theorem c8_decode_failure_escapes :
    mconReadStep
      ⟨fun enc c =>
        if enc = "UTF-8" ∧ c = 0 then .error .unicodeDecodeError
        else if enc = "latin-1" then .ok "text"
        else .error .lookupError⟩
      "UTF-8" "latin-1" "" [0] = .error .unicodeDecodeError ∧
    DecodeOracle.decode
      ⟨fun enc c =>
        if enc = "UTF-8" ∧ c = 0 then .error .unicodeDecodeError
        else if enc = "latin-1" then .ok "text"
        else .error .lookupError⟩
      "latin-1" 0 = .ok "text" :=
  ⟨rfl, rfl⟩

/-- C4 amended: a framed line `PING :t` makes `mcon` write out the
line with every occurrence of `PING` replaced by `PONG` plus the
terminator — equal to `PONG :t` followed by CR-LF whenever the token
itself contains neither `PING` nor CR/LF — and buffer the probe line;
that line contains the substring `PING :`, and the buffer reader never
returns any line containing that substring, so the probe is never
delivered. -/
theorem c4_ping_pong_amended (st : BufState) (t : String) (rest : List String)
    (hnet : st.net = (("PING :" ++ t) ++ "\r\n") :: rest)
    (hnop : pyFindStr t "PING" = none)
    (hcr : '\r' ∉ t.data) (hlf : '\n' ∉ t.data) :
    mcon st =
      .ok ({ st with
             net := rest,
             buffer := st.buffer ++ ["PING :" ++ t],
             sent := st.sent ++ [("PONG :" ++ t) ++ "\r\n"] }) ∧
    find ("PING :" ++ t) "PING :" = true ∧
    (∀ fuel s r s', _recv fuel s = .ok (r, s') → find r "PING :" = false) := by
  have hdata : ("PING :" ++ t).data = "PING :".data ++ t.data := by
    simp [String.data_append]
  have hping : pyFindStr ("PING :" ++ t) "PING :" = some 0 := by
    unfold pyFindStr
    rw [hdata]
    have hpre : isPre "PING :".data
        ('P' :: 'I' :: 'N' :: 'G' :: ' ' :: ':' :: t.data) = true :=
      isPre_append_self "PING :".data t.data
    show pyFindIdxL "PING :".data ('P' :: 'I' :: 'N' :: 'G' :: ' ' :: ':' :: t.data) = some 0
    rw [pyFindIdxL, if_pos hpre]
  have hcr' : '\r' ∉ ("PING :" ++ t).data := by
    rw [hdata]
    intro hm
    rcases List.mem_append.mp hm with h1 | h2
    · exact absurd h1 (by decide)
    · exact hcr h2
  have hne : ("PING :" ++ t) ≠ "" := by
    intro hh
    have := congrArg String.data hh
    rw [hdata] at this
    simp at this
  have hrep : pyReplace ("PING :" ++ t) "PING" "PONG" = "PONG :" ++ t := by
    unfold pyReplace
    rw [show ("PING :" ++ t).data.length = (3 + t.data.length) + 3 by
      rw [hdata]; simp; omega]
    rw [hdata]
    rw [pyReplaceL_ping t.data hnop (3 + t.data.length)]
    rw [show "PONG :".data ++ t.data = ("PONG :" ++ t).data by
      simp [String.data_append]]
  have hsend : send (pyReplace ("PING :" ++ t) "PING" "PONG") =
      ("PONG :" ++ t) ++ "\r\n" := by
    rw [hrep]
    unfold send
    have hd2 : ("PONG :" ++ t).data = "PONG :".data ++ t.data := by
      simp [String.data_append]
    have h1 : pyReplace ("PONG :" ++ t) "\r" "\\r" = "PONG :" ++ t := by
      apply pyReplace_noop
      apply pyFindIdxL_single_none
      rw [hd2]
      intro hm
      rcases List.mem_append.mp hm with ha | hb
      · exact absurd ha (by decide)
      · exact hcr hb
    have h2 : pyReplace ("PONG :" ++ t) "\n" "\\n" = "PONG :" ++ t := by
      apply pyReplace_noop
      apply pyFindIdxL_single_none
      rw [hd2]
      intro hm
      rcases List.mem_append.mp hm with ha | hb
      · exact absurd ha (by decide)
      · exact hlf hb
    rw [h1, h2]
  refine ⟨?_, ?_, ?_⟩
  · have := mcon_single_ping st ("PING :" ++ t) rest hnet hcr' hne hping
    rw [hsend] at this
    exact this
  · unfold find
    rw [hping]
    rfl
  · exact fun fuel s r s' h => _recv_ok_find_false fuel s r s' h

/-- C4 witness: the amended theorem at the concrete token "abc". -/
theorem c4_ping_pong_witness :
    mcon ⟨[], 0, [("PING :" ++ "abc") ++ "\r\n"], []⟩ =
      .ok ({ (⟨[], 0, [("PING :" ++ "abc") ++ "\r\n"], []⟩ : BufState) with
             net := [],
             buffer := [] ++ ["PING :" ++ "abc"],
             sent := [] ++ [("PONG :" ++ "abc") ++ "\r\n"] }) :=
  (c4_ping_pong_amended ⟨[], 0, [("PING :" ++ "abc") ++ "\r\n"], []⟩ "abc" []
    rfl (by decide) (by decide) (by decide)).1

/-- The skip loop delivers the first line at or after the cursor that
does not contain the probe substring, advancing the cursor just past
it. -/
theorem recvLoop_delivers :
    ∀ (fuel : Nat) (st : BufState) (msg mj : String) (j : Nat),
      st.buffer.get? st.index = some msg →
      st.index ≤ j → j < st.buffer.length →
      st.buffer.get? j = some mj → find mj "PING :" = false →
      (∀ i mi, st.index ≤ i → i < j → st.buffer.get? i = some mi →
        find mi "PING :" = true) →
      j - st.index < fuel →
      recvLoop fuel st msg = .ok (mj, { st with index := j + 1 }) := by
  intro fuel
  induction fuel with
  | zero => intro st msg mj j _ _ _ _ _ _ hfuel; omega
  | succ f ih =>
    intro st msg mj j hmsg hle hjl hmj hclean hskip hfuel
    by_cases hj : st.index = j
    · have : msg = mj := by
        rw [hj] at hmsg
        rw [hmsg] at hmj
        exact (Option.some.injEq _ _).mp hmj
      subst this
      rw [recvLoop, if_neg (by rw [hclean]; simp), hj]
    · have hlt : st.index < j := Nat.lt_of_le_of_ne hle hj
      have hfind : find msg "PING :" = true :=
        hskip st.index msg (Nat.le_refl _) hlt hmsg
      rw [recvLoop, if_pos hfind]
      have hlt1 : st.index + 1 < st.buffer.length := by omega
      rw [List.get?_eq_get hlt1]
      show recvLoop f { st with index := st.index + 1 }
        (st.buffer.get ⟨st.index + 1, hlt1⟩) = _
      rw [ih { st with index := st.index + 1 }
        (st.buffer.get ⟨st.index + 1, hlt1⟩) mj j
        (List.get?_eq_get hlt1) hlt hjl hmj hclean
        (fun i mi h1 h2 h3 => hskip i mi (Nat.le_of_succ_le h1) h2 h3)
        (by show j - (st.index + 1) < f; omega)]

/-- C5 amended: when no refill or compaction is pending, the buffer
reader skips exactly the lines that contain the substring `PING :`
anywhere — not only probe-prefixed lines — and returns the first line
at or after the cursor free of that substring, moving the cursor just
past it (so each such line is delivered exactly once, in arrival
order). -/
theorem c5_substring_skip_amended (fuel : Nat) (st : BufState)
    (mj : String) (j : Nat)
    (h199 : st.index < 199)
    (hle : st.index ≤ j) (hjl : j < st.buffer.length)
    (hmj : st.buffer.get? j = some mj) (hclean : find mj "PING :" = false)
    (hskip : ∀ i mi, st.index ≤ i → i < j → st.buffer.get? i = some mi →
      find mi "PING :" = true)
    (hfuel : j - st.index < fuel) :
    _recv fuel st = .ok (mj, { st with index := j + 1 }) := by
  have hlen : st.index < st.buffer.length := Nat.lt_of_le_of_lt hle hjl
  unfold _recv
  rw [if_neg (show ¬ st.index ≥ st.buffer.length by omega)]
  show (match (if st.index ≥ 199 then mcon (_resetbuffer st) else Except.ok st) with
        | Except.error e => Except.error e
        | Except.ok st2 => recvDeliver fuel st2) = _
  rw [if_neg (show ¬ st.index ≥ 199 by omega)]
  show recvDeliver fuel st = _
  unfold recvDeliver
  rw [List.get?_eq_get hlen]
  exact recvLoop_delivers fuel st (st.buffer.get ⟨st.index, hlen⟩) mj j
    (List.get?_eq_get hlen) hle hjl hmj hclean hskip hfuel

/-- C5 witness: the amended theorem delivering "keep" over a skipped
line whose body merely contains `PING :`. -/
theorem c5_substring_skip_witness :
    _recv 5 ⟨["x PING : y", "keep"], 0, [], []⟩ =
      .ok ("keep", { (⟨["x PING : y", "keep"], 0, [], []⟩ : BufState) with
                     index := 2 }) := by
  have h := c5_substring_skip_amended 5 ⟨["x PING : y", "keep"], 0, [], []⟩
    "keep" 1 (by decide) (by decide) (by decide) rfl (by decide)
    (fun i mi h1 h2 h3 => by
      interval_cases i
      · simp only [List.get?] at h3
        rw [show mi = "x PING : y" from ((Option.some.injEq _ _).mp h3).symm]
        decide)
    (by decide)
  exact h

theorem processLine_index (st : BufState) (l : String) :
    (processLine st l).index = st.index := by
  unfold processLine
  split
  · split <;> rfl
  · split <;> rfl

theorem foldl_processLine_index (lines : List String) :
    ∀ st : BufState, (lines.foldl processLine st).index = st.index := by
  induction lines with
  | nil => intro st; rfl
  | cons l ls ih =>
    intro st
    show (ls.foldl processLine (processLine st l)).index = st.index
    rw [ih (processLine st l), processLine_index]

theorem processLine_buffer (st : BufState) (l : String) :
    (processLine st l).buffer = st.buffer ∨
      (processLine st l).buffer = st.buffer ++ [l] := by
  unfold processLine
  split
  · split
    · right; rfl
    · left; rfl
  · split
    · right; rfl
    · left; rfl

theorem mem_foldl_processLine (lines : List String) :
    ∀ (st : BufState) (x : String),
      x ∈ (lines.foldl processLine st).buffer → x ∈ st.buffer ∨ x ∈ lines := by
  induction lines with
  | nil => intro st x hx; exact Or.inl hx
  | cons l ls ih =>
    intro st x hx
    rcases ih (processLine st l) x hx with h1 | h2
    · rcases processLine_buffer st l with hb | hb
      · rw [hb] at h1; exact Or.inl h1
      · rw [hb] at h1
        rcases List.mem_append.mp h1 with ha | hb2
        · exact Or.inl ha
        · exact Or.inr (by simp at hb2; simp [hb2])
    · exact Or.inr (List.mem_cons_of_mem l h2)

/-- C2 amended: when the cursor has reached the high-water mark 199
(and the buffer still holds lines at or past the cursor), `_recv`
discards the ENTIRE buffer — delivered and undelivered lines alike —
resets the cursor to 0, refills from the next network read, and
delivers from that refilled state; afterwards the buffered lines all
come from the fresh read, so no previously-delivered line can be
re-delivered, but the unread lines that were in the buffer are lost
rather than preserved. -/
theorem c2_compaction_amended (fuel : Nat) (st : BufState)
    (sdata : String) (rest : List String)
    (h199 : st.index ≥ 199) (hlen : st.index < st.buffer.length)
    (hnet : st.net = sdata :: rest) :
    _recv fuel st = recvDeliver fuel
      ((pySplitOnStr sdata "\r\n").foldl processLine
        { st with buffer := [], index := 0, net := rest }) ∧
    ((pySplitOnStr sdata "\r\n").foldl processLine
      { st with buffer := [], index := 0, net := rest }).index = 0 ∧
    (∀ l, l ∈ ((pySplitOnStr sdata "\r\n").foldl processLine
        { st with buffer := [], index := 0, net := rest }).buffer →
      l ∈ pySplitOnStr sdata "\r\n") := by
  refine ⟨?_, ?_, ?_⟩
  · unfold _recv
    rw [if_neg (show ¬ st.index ≥ st.buffer.length by omega)]
    show (match (if st.index ≥ 199 then mcon (_resetbuffer st) else Except.ok st) with
          | Except.error e => Except.error e
          | Except.ok st2 => recvDeliver fuel st2) = _
    rw [if_pos h199]
    unfold mcon _resetbuffer
    show (match (match st.net with
          | [] => Except.error PyErr.blocked
          | sdata2 :: rest2 =>
            Except.ok ((pySplitOnStr sdata2 "\r\n").foldl processLine
              { st with buffer := [], index := 0, net := rest2 })) with
        | Except.error e => Except.error e
        | Except.ok st2 => recvDeliver fuel st2) = _
    rw [hnet]
  · exact foldl_processLine_index _ _
  · intro l hl
    rcases mem_foldl_processLine _ _ l hl with h1 | h2
    · simp at h1
    · exact h2

set_option maxRecDepth 8000 in
/-- C2 witness: the amended theorem at a concrete compacting state. -/
theorem c2_compaction_witness :
    _recv 5 ⟨List.replicate 199 "x" ++ ["pending"], 199, ["fresh\r\n"], []⟩ =
      recvDeliver 5 ((pySplitOnStr "fresh\r\n" "\r\n").foldl processLine
        { (⟨List.replicate 199 "x" ++ ["pending"], 199, ["fresh\r\n"], []⟩ : BufState) with
          buffer := [], index := 0, net := [] }) :=
  (c2_compaction_amended 5
    ⟨List.replicate 199 "x" ++ ["pending"], 199, ["fresh\r\n"], []⟩
    "fresh\r\n" [] (by decide) (by decide) rfl).1

theorem nickRename_eq_spec (A B : String) :
    ∀ chans : List (String × PyVal),
      (∀ p ∈ chans, chanHasUser A p.2 = true) →
      nickRename A B chans = .ok (specNickRename A B chans) := by
  intro chans
  induction chans with
  | nil => intro _; rfl
  | cons p rest ih =>
    intro h
    obtain ⟨name, v⟩ := p
    have hv := h (name, v) (List.mem_cons_self _ _)
    rcases v with sv | lv | d
    · simp [chanHasUser] at hv
    · simp [chanHasUser] at hv
    · have hv2 : (match dLookup d "USERS" with
          | some (PyVal.pydict u) => (dLookup u A).isSome
          | _ => false) = true := hv
      rcases hu : dLookup d "USERS" with _ | uval
      · rw [hu] at hv2
        exact absurd (show (false : Bool) = true from hv2) (by decide)
      · rcases uval with su | lu | u
        · rw [hu] at hv2
          exact absurd (show (false : Bool) = true from hv2) (by decide)
        · rw [hu] at hv2
          exact absurd (show (false : Bool) = true from hv2) (by decide)
        · have hv3 : (dLookup u A).isSome = true := by
            rw [hu] at hv2
            exact hv2
          rcases hl : dLookup u A with _ | priv
          · rw [hl] at hv3
            simp at hv3
          · have hrest := ih (fun q hq => h q (List.mem_cons_of_mem _ hq))
            simp [nickRename, asDict, dGet, dDel, hu, hl, Bind.bind,
              Except.bind, hrest, specNickRename, specRenameVal]

theorem specRenameVal_pydict (old new : String)
    (d u : List (String × PyVal)) (priv : PyVal)
    (hu : dLookup d "USERS" = some (.pydict u))
    (hl : dLookup u old = some priv) :
    specRenameVal old new (.pydict d) =
      .pydict (dSet d "USERS" (.pydict (dSet (dRemove u old) new priv))) := by
  show (match dLookup d "USERS" with
      | some (PyVal.pydict u) =>
        match dLookup u old with
        | some priv =>
          PyVal.pydict (dSet d "USERS" (PyVal.pydict (dSet (dRemove u old) new priv)))
        | none => PyVal.pydict d
      | _ => PyVal.pydict d) = _
  rw [hu]
  show (match dLookup u old with
      | some priv =>
        PyVal.pydict (dSet d "USERS" (PyVal.pydict (dSet (dRemove u old) new priv)))
      | none => PyVal.pydict d) = _
  rw [hl]

theorem dLookup_specNickRename (old new k : String)
    (chans : List (String × PyVal)) :
    dLookup (specNickRename old new chans) k =
      (dLookup chans k).map (specRenameVal old new) := by
  induction chans with
  | nil => rfl
  | cons p t ih =>
    obtain ⟨k1, v1⟩ := p
    by_cases hk : k1 = k
    · simp [specNickRename, dLookup, hk]
    · simp only [specNickRename, List.map_cons, dLookup, hk, if_false] at ih ⊢
      exact ih

/-- C3 counterexample: with the channel store listing "#b" (whose user
map lacks alice) before "#a" (where alice is present), classifying
`:alice!a@h NICK charlie` raises KeyError at "#b" — no channel is
renamed and no NICK event is returned, contradicting the claim that
channels without the old nick are unaffected while the others are
renamed. -/
theorem c3_nick_keyerror_counterexample :
    stream
      ⟨"me",
        [("#b", .pydict [("USERS", .pydict [("bob", .pylist ["", "", "", "", ""])])]),
         ("#a", .pydict [("USERS", .pydict [("alice", .pylist ["@", "", "", "", ""])])])],
        [], [], [], false⟩
      ":alice!a@h NICK charlie" = .error (.keyError "alice") := rfl

/-- C3 amended: provided the old nick A is present in every tracked
channel's user map (otherwise the classifier raises KeyError and
returns no event), a NICK line renaming A to B removes the key A from
every channel's user map, binds B to A's prior attribute vector,
leaves every other user's entry unchanged, and updates the
locally-tracked nick when A is the local identity. -/
theorem c3_nick_rename_amended (st : IRCState)
    (data s0 B A usr host : String)
    (hsegs : pySplitWs data = [s0, "NICK", B])
    (hwho : _from_ (pyReplaceFirst s0 ":" "") = .full A usr host)
    (hAB : A ≠ B)
    (hwf : ∀ p ∈ st.channels, chanHasUser A p.2 = true) :
    stream st data =
      .ok (.NICK (.full A usr host) B,
        { st with
          current_nick := if st.current_nick = A then B else st.current_nick,
          channels := specNickRename A B st.channels }) ∧
    (∀ name d u priv,
      dLookup st.channels name = some (.pydict d) →
      dLookup d "USERS" = some (.pydict u) →
      dLookup u A = some priv →
      dLookup (specNickRename A B st.channels) name =
        some (.pydict (dSet d "USERS"
          (.pydict (dSet (dRemove u A) B priv)))) ∧
      dLookup (dSet (dRemove u A) B priv) A = none ∧
      dLookup (dSet (dRemove u A) B priv) B = some priv ∧
      (∀ n, n ≠ A → n ≠ B → dLookup (dSet (dRemove u A) B priv) n =
        dLookup u n)) := by
  constructor
  · have hrename := nickRename_eq_spec A B st.channels hwf
    by_cases hc : st.current_nick = A
    · simp [stream, hsegs, lidx, hwho, identGet0, pyJoin, hc, hrename,
        Bind.bind, Except.bind]
    · simp [stream, hsegs, lidx, hwho, identGet0, pyJoin, hc, hrename,
        Bind.bind, Except.bind]
  · intro name d u priv hcn hu hl
    refine ⟨?_, ?_, ?_, ?_⟩
    · rw [dLookup_specNickRename, hcn]
      show some (specRenameVal A B (PyVal.pydict d)) = _
      rw [specRenameVal_pydict A B d u priv hu hl]
    · rw [dLookup_dSet]
      rw [if_neg (fun hh => hAB hh.symm)]
      rw [dLookup_dRemove, if_pos rfl]
    · rw [dLookup_dSet, if_pos rfl]
    · intro n hnA hnB
      rw [dLookup_dSet, if_neg (fun hh => hnB hh.symm)]
      rw [dLookup_dRemove, if_neg (fun hh => hnA hh.symm)]

/-- C3 witness: the amended theorem at a concrete two-channel store
with alice present in both. -/
theorem c3_nick_rename_witness :
    stream
      ⟨"alice",
        [("#a", .pydict [("USERS", .pydict
           [("alice", .pylist ["@", "", "", "", ""]),
            ("carol", .pylist ["", "", "", "", ""])])]),
         ("#c", .pydict [("USERS", .pydict
           [("dave", .pylist ["", "", "", "", ""]),
            ("alice", .pylist ["+", "", "", "", ""])])])],
        [], [], [], false⟩
      ":alice!a@h NICK bob" =
      .ok (.NICK (.full "alice" "a" "h") "bob",
        { (⟨"alice",
            [("#a", .pydict [("USERS", .pydict
               [("alice", .pylist ["@", "", "", "", ""]),
                ("carol", .pylist ["", "", "", "", ""])])]),
             ("#c", .pydict [("USERS", .pydict
               [("dave", .pylist ["", "", "", "", ""]),
                ("alice", .pylist ["+", "", "", "", ""])])])],
            [], [], [], false⟩ : IRCState) with
          current_nick := if ("alice" : String) = "alice" then "bob" else "alice",
          channels := specNickRename "alice" "bob"
            [("#a", .pydict [("USERS", .pydict
               [("alice", .pylist ["@", "", "", "", ""]),
                ("carol", .pylist ["", "", "", "", ""])])]),
             ("#c", .pydict [("USERS", .pydict
               [("dave", .pylist ["", "", "", "", ""]),
                ("alice", .pylist ["+", "", "", "", ""])])])] }) :=
  (c3_nick_rename_amended
    ⟨"alice",
      [("#a", .pydict [("USERS", .pydict
         [("alice", .pylist ["@", "", "", "", ""]),
          ("carol", .pylist ["", "", "", "", ""])])]),
       ("#c", .pydict [("USERS", .pydict
         [("dave", .pylist ["", "", "", "", ""]),
          ("alice", .pylist ["+", "", "", "", ""])])])],
      [], [], [], false⟩
    ":alice!a@h NICK bob" ":alice!a@h" "bob" "alice" "a" "h" rfl rfl
    (by decide) (by decide)).1

/-- C8 amended: the fallback encoding is consulted only on a
LookupError (unknown primary encoding name), and it then decodes a
freshly received chunk, not the one that failed; a genuine decode
failure (UnicodeDecodeError) under the primary encoding propagates out
of the framer immediately, without the fallback being tried. -/
theorem c8_decode_fallback_amended (dm : DecodeOracle)
    (enc fb sdata : String) (c : Nat) (chunks : List Nat) :
    (∀ c2 rest2 out, chunks = c2 :: rest2 →
      dm.decode enc c = .error .lookupError →
      dm.decode fb c2 = .ok out →
      mconReadStep dm enc fb sdata (c :: chunks) = .ok (sdata ++ out, rest2)) ∧
    (dm.decode enc c = .error .unicodeDecodeError →
      mconReadStep dm enc fb sdata (c :: chunks) = .error .unicodeDecodeError) := by
  constructor
  · intro c2 rest2 out hch h1 h2
    subst hch
    simp [mconReadStep, h1, h2]
  · intro h1
    simp [mconReadStep, h1]

/-- C8 witness: the amended theorem at a concrete oracle whose primary
encoding name is unknown and whose fallback decodes the next chunk. -/
theorem c8_decode_fallback_witness :
    mconReadStep
      ⟨fun enc c =>
        if enc = "bad-codec" then .error .lookupError
        else if enc = "latin-1" ∧ c = 1 then .ok "ok"
        else .error .unicodeDecodeError⟩
      "bad-codec" "latin-1" "" [0, 1] = .ok ("" ++ "ok", []) :=
  ((c8_decode_fallback_amended
    ⟨fun enc c =>
      if enc = "bad-codec" then .error .lookupError
      else if enc = "latin-1" ∧ c = 1 then .ok "ok"
      else .error .unicodeDecodeError⟩
    "bad-codec" "latin-1" "" 0 [1]).1) 1 [] "ok" rfl rfl rfl

/-- C10: for every PRIVMSG line whose body begins with the CTCP
delimiter, the text the emitted event carries is derived from the
decoded body converted to upper case: an ACTION event carries the
uppercased body minus its first token, and a CTCP event carries the
whole uppercased decoded body — never the original mixed-case text. -/
theorem c10_ctcp_uppercase (st : IRCState)
    (data s0 target : String) (restToks : List String)
    (A usr host msg rctcp : String)
    (hsegs : pySplitWs data = s0 :: "PRIVMSG" :: target :: restToks)
    (hwho : _from_ (pyReplaceFirst s0 ":" "") = .full A usr host)
    (hmsg : msg = pyReplaceFirst (pyJoin " " restToks) ":" "")
    (hctcp : pyFindStr msg "\x01" = some 0)
    (hr : rctcp = pyUpper (ctcp_decode msg)) :
    (lidx (pySplitWs rctcp) 0 = .ok "ACTION" →
      stream st data = .ok (.ACTION (.full A usr host) target
        (pyJoin " " ((pySplitWs rctcp).drop 1)), st)) ∧
    (∀ c0 st', lidx (pySplitWs rctcp) 0 = .ok c0 → c0 ≠ "ACTION" →
      ctcpNoticeLoop (pySplitWs rctcp) c0 (.full A usr host) st st.ctcps =
        .ok st' →
      stream st data = .ok (.CTCP (.full A usr host) target rctcp, st')) := by
  have hunfold : ∀ c0 : String, lidx (pySplitWs rctcp) 0 = .ok c0 →
      (pySplitWs rctcp)[0]? = some c0 := by
    intro c0 hc0
    unfold lidx at hc0
    rw [List.get?_eq_getElem?] at hc0
    rcases hx : (pySplitWs rctcp)[0]? with _ | a
    · rw [hx] at hc0
      exact absurd hc0 (by simp)
    · rw [hx] at hc0
      have h3 : (Except.ok a : Except PyErr String) = .ok c0 := hc0
      exact congrArg some ((Except.ok.injEq _ _).mp h3)
  constructor
  · intro hact
    have hget := hunfold "ACTION" hact
    simp [stream, hsegs, hwho, ← hmsg, hctcp, ← hr, hget, lidx,
      Bind.bind, Except.bind]
  · intro c0 st' hc0 hne hloop
    have hget := hunfold c0 hc0
    simp [stream, hsegs, hwho, ← hmsg, hctcp, ← hr, hget, hne, hloop, lidx,
      Bind.bind, Except.bind]

/-- C10 witness: the ACTION case of the theorem at the concrete line
`:a!b@c PRIVMSG #ch :\x01ACTION waves\x01`, whose action text is the
uppercased "WAVES". -/
theorem c10_ctcp_uppercase_witness :
    stream ⟨"me", [], [], [], [], false⟩
        ":a!b@c PRIVMSG #ch :\x01ACTION waves\x01" =
      .ok (.ACTION (.full "a" "b" "c") "#ch" "WAVES",
        ⟨"me", [], [], [], [], false⟩) :=
  (c10_ctcp_uppercase ⟨"me", [], [], [], [], false⟩
    ":a!b@c PRIVMSG #ch :\x01ACTION waves\x01" ":a!b@c" "#ch"
    [":\x01ACTION", "waves\x01"] "a" "b" "c"
    "\x01ACTION waves\x01" "ACTION WAVES"
    rfl rfl rfl rfl rfl).1 rfl

end Lurklib
